import Mathlib

/-!
Shallow embedding of `Additionnals/python_stat_compiler.py`.

The script aggregates benchmark JSON files: it loads rows from a directory
(`load_rows`), derives a fixed-shape metric record from each raw record
(`derive`, with the helper `get_opt`), and renders a Markdown table and a CSV
file, both sorted by the parameter tuple `(Ncols, ell, ellp, rho, eta, theta)`.

JSON values are modelled by the inductive type `J`; Python dicts are
association lists in insertion order with first-match lookup; Python's
numeric tower (int/float) is modelled by `ℚ`, with `float` division and
division by powers of two being exact on the values the program handles.
Fallible coercions (`int(...)`, `float(...)`, attribute access on non-dicts)
are modelled in the `Option` monad: `none` is an uncaught Python exception.
-/

namespace StatCompiler

/-- JSON-equivalent structured data, the result of `json.load`.
Objects are association lists in insertion order. -/
inductive J where
  | null : J
  | bool : Bool → J
  | num : ℚ → J
  | str : String → J
  | arr : List J → J
  | obj : List (String × J) → J

/-- Python dict lookup: first binding wins. -/
def lookupJ : List (String × J) → String → Option J
  | [], _ => none
  | (k, v) :: rest, key => if key = k then some v else lookupJ rest key

/-- Python `d.get(key, default)`. -/
def getD (row : List (String × J)) (key : String) (d : J) : J :=
  (lookupJ row key).getD d

/-- Python truthiness `bool(v)` of a JSON value. -/
def pyTruthy : J → Bool
  | J.null => false
  | J.bool b => b
  | J.num q => q != 0
  | J.str s => s != ""
  | J.arr l => !l.isEmpty
  | J.obj l => !l.isEmpty

/-- Is the value JSON `null` (Python `None`)? -/
def isNull : J → Bool
  | J.null => true
  | _ => false

/-- Python `a.startswith(b)`: code-point prefix test. -/
def strStartsWith (s p : String) : Bool :=
  p.data.isPrefixOf s.data

/-- Strip leading and trailing whitespace, as Python's implicit stripping in
`int(str)` / `float(str)` does. -/
def trimChars (cs : List Char) : List Char :=
  ((cs.dropWhile Char.isWhitespace).reverse.dropWhile Char.isWhitespace).reverse

/-- Digits of a character list read as a base-10 natural number
(caller checks that every character is a digit). -/
def digitsVal (cs : List Char) : Nat :=
  cs.foldl (fun acc c => acc * 10 + (c.toNat - 48)) 0

/-- Parse an integer literal (optional sign, digits) the way Python's
`int(str)` reads plain decimal literals, after stripping whitespace. -/
def parseIntStr (s : String) : Option Int :=
  let core : List Char → Option Int := fun cs =>
    if !cs.isEmpty && cs.all Char.isDigit then some (digitsVal cs) else none
  match trimChars s.data with
  | '-' :: cs => (core cs).map (fun z => -z)
  | '+' :: cs => core cs
  | cs => core cs

/-- Parse a decimal literal (optional sign, digits, optional fractional part)
the way Python's `float(str)` reads plain decimal literals, after stripping
surrounding whitespace. -/
def parseDecimal (s : String) : Option ℚ :=
  let core : List Char → Option ℚ := fun cs =>
    let intPart := cs.takeWhile Char.isDigit
    let rest := cs.dropWhile Char.isDigit
    match rest with
    | [] => if intPart.isEmpty then none else some (digitsVal intPart)
    | '.' :: frac =>
      if frac.all Char.isDigit && !(intPart.isEmpty && frac.isEmpty) then
        some ((digitsVal intPart : ℚ) + (digitsVal frac : ℚ) / (10 ^ frac.length : ℚ))
      else none
    | _ => none
  match trimChars s.data with
  | '-' :: cs => (core cs).map (fun q => -q)
  | '+' :: cs => core cs
  | cs => core cs

/-- Python `int(v)` on a JSON value: truncation toward zero for numbers,
`0`/`1` for booleans, decimal parsing for strings; raises (`none`) otherwise. -/
def pyToInt : J → Option Int
  | J.num q =>
    some (if q.num < 0 then -(((-q.num).toNat / q.den : Nat) : Int)
          else ((q.num.toNat / q.den : Nat) : Int))
  | J.bool b => some (if b then 1 else 0)
  | J.str s => parseIntStr s
  | _ => none

/-- Python `float(v)` on a JSON value: numbers and booleans convert, decimal
strings parse; anything else raises (`none`). -/
def pyFloat : J → Option ℚ
  | J.num q => some q
  | J.bool b => some (if b then 1 else 0)
  | J.str s => parseDecimal s
  | _ => none

/-- How a raw JSON value participates in Python `sum(...)` (which starts
from the int `0` and adds the elements): numbers and booleans add; anything
else — including numeric strings, which `float(...)` would parse — raises
`TypeError` (`none`). -/
def pySumVal : J → Option ℚ
  | J.num q => some q
  | J.bool b => some (if b then 1 else 0)
  | _ => none

/-- Floor of a rational (denominators are positive, so Euclidean division
of the numerator is the floor). -/
def ratFloor (q : ℚ) : Int := q.num.ediv q.den

/-- Round half to even, the rounding used by Python float formatting. -/
def rhe (q : ℚ) : Int :=
  let f := ratFloor q
  let r := q - (f : ℚ)
  if r < 1/2 then f
  else if 1/2 < r then f + 1
  else if f % 2 = 0 then f else f + 1

/-- Python `f"{q:.0f}"`. -/
def fmtFixed0 (q : ℚ) : String :=
  if q < 0 then "-" ++ toString (rhe (-q)).toNat
  else toString (rhe q).toNat

/-- Digits of `f"{q:.1f}"` for a non-negative value. -/
def fmtFixed1Nonneg (q : ℚ) : String :=
  toString ((rhe (q * 10)).toNat / 10) ++ "." ++ toString ((rhe (q * 10)).toNat % 10)

/-- Python `f"{q:.1f}"` (round half to even, symmetric in the sign). -/
def fmtFixed1 (q : ℚ) : String :=
  if q < 0 then "-" ++ fmtFixed1Nonneg (-q) else fmtFixed1Nonneg q

/-- `fmt_bytes` from the script, with the loop over
`["B", "KiB", "MiB", "GiB"]` unrolled: at each unit the guard is
`n < 1024 or unit == "GiB"`; on return the current `n` is formatted for the
`B` unit (`:.0f`) and `n / 1024` is formatted (`:.1f`) for the others;
otherwise `n /= 1024` and the loop continues. -/
def fmt_bytes (n : ℚ) : String :=
  if n < 1024 then fmtFixed0 n ++ " B"
  else
    let n := n / 1024
    if n < 1024 then fmtFixed1 (n / 1024) ++ " KiB"
    else
      let n := n / 1024
      if n < 1024 then fmtFixed1 (n / 1024) ++ " MiB"
      else
        let n := n / 1024
        fmtFixed1 (n / 1024) ++ " GiB"

/-- The fixed-shape output of `derive`, field names as in the returned dict. -/
structure Metric where
  Ncols : Int
  ell : Int
  ellp : Int
  rho : Int
  eta : Int
  theta : Int
  ok_lin : Bool
  ok_eq4 : Bool
  ok_sum : Bool
  ok_all : Bool
  t_total_ms : ℚ
  t_norm_ms : ℚ
  size_fpar_core : Int
  size_fpar_norm : Int
  size_fpar_total : Int
  size_witness_norm : Int
  size_witness_total : Int
  size_total_bytes : Int
  deriving DecidableEq, Repr

/-- The pattern `row.get(name, {}) or {}` followed by dict access: a dict is
used as-is, a falsy value becomes the empty dict, and attribute access on a
truthy non-dict raises (`none`). -/
def orEmptyDict (v : J) : Option (List (String × J)) :=
  match v with
  | J.obj l => some l
  | v => if pyTruthy v then none else some []

/-- `get_opt(opts, row, key)` from the script:
`opts[key]` if `opts` is a dict containing `key`, else `row.get(key, 0)`. -/
def get_opt (opts : J) (row : List (String × J)) (key : String) : J :=
  match opts with
  | J.obj l =>
    match lookupJ l key with
    | some v => v
    | none => getD row key (J.num 0)
  | _ => getD row key (J.num 0)

/-- Sequential fallible map, the order Python evaluates a comprehension. -/
def mapOpt (f : α → Option β) : List α → Option (List β)
  | [] => some []
  | a :: as =>
    match f a, mapOpt f as with
    | some b, some bs => some (b :: bs)
    | _, _ => none

/-- Python `sum(vs)` over raw values, as an `Option`: every element must be
a number or a boolean, else the addition raises `TypeError`. -/
def sumPyFloat (vs : List J) : Option ℚ :=
  (mapOpt pySumVal vs).map (List.foldl (· + ·) 0)

/-- Python `sum(int(v) for v in vs)`, as an `Option`. -/
def sumPyInt (vs : List J) : Option Int :=
  (mapOpt pyToInt vs).map (List.foldl (· + ·) 0)

/-- The parameter-resolution part of `derive` (lines 36-42 and the `int(...)`
coercions of the result dict). -/
def deriveParams (row : List (String × J)) :
    Option (Int × Int × Int × Int × Int × Int) := do
  let opts := getD row "Opts" (J.obj [])
  let ncols ← pyToInt (get_opt opts row "NCols")
  let ell ← pyToInt (get_opt opts row "Ell")
  let ellp ← pyToInt (get_opt opts row "EllPrime")
  let rho ← pyToInt (get_opt opts row "Rho")
  let eta ← pyToInt (get_opt opts row "Eta")
  let theta ← pyToInt (get_opt opts row "Theta")
  pure (ncols, ell, ellp, rho, eta, theta)

/-- The verdict part of `derive` (lines 44-48). -/
def deriveVerdict (row : List (String × J)) :
    Option (Bool × Bool × Bool × Bool) := do
  let verdict ← orEmptyDict (getD row "Verdict" (J.obj []))
  let ok_lin := pyTruthy (getD verdict "OkLin" (J.bool false))
  let ok_eq4 := pyTruthy (getD verdict "OkEq4" (J.bool false))
  let ok_sum := pyTruthy (getD verdict "OkSum" (J.bool false))
  pure (ok_lin, ok_eq4, ok_sum, ok_lin && ok_eq4 && ok_sum)

/-- The timing part of `derive` (lines 50-54 and 75-76): `times.get("__total__")`
is `None` when the key is absent or bound to `null`, in which case the total is
`sum(times.values())`; both results are divided by 1000. -/
def deriveTimes (row : List (String × J)) : Option (ℚ × ℚ) := do
  let times ← orEmptyDict (getD row "TimingsUS" (J.obj []))
  let total_us ←
    match lookupJ times "__total__" with
    | some v => if isNull v then sumPyFloat (times.map Prod.snd) else pyFloat v
    | none => sumPyFloat (times.map Prod.snd)
  let t_norm ← pyFloat (getD times "buildFparLinfChain" (J.num 0))
  pure (total_us / 1000, t_norm / 1000)

/-- The size-aggregation part of `derive` (lines 56-62), in the tuple order
`(core, norm, total, witness_norm, witness_total, total_bytes)` of the
returned dict. -/
def deriveSizes (row : List (String × J)) :
    Option (Int × Int × Int × Int × Int × Int) := do
  let sizes ← orEmptyDict (getD row "SizesB" (J.obj []))
  let size_total ← sumPyInt (sizes.map Prod.snd)
  let size_fpar_total ←
    sumPyInt ((sizes.filter (fun p => strStartsWith p.1 "piop/Fpar/")).map Prod.snd)
  let size_fpar_core ← pyToInt (getD sizes "piop/Fpar/core" (J.num 0))
  let size_fpar_norm ← pyToInt (getD sizes "piop/Fpar/linf_chain" (J.num 0))
  let size_witness_total ←
    sumPyInt ((sizes.filter (fun p => strStartsWith p.1 "piop/witness/")).map Prod.snd)
  let m ← pyToInt (getD sizes "piop/witness/linf_chain/M" (J.num 0))
  let d ← pyToInt (getD sizes "piop/witness/linf_chain/D" (J.num 0))
  pure (size_fpar_core, size_fpar_norm, size_fpar_total, m + d,
        size_witness_total, size_total)

/-- `derive(row)` from the script on a dict row: `none` is an uncaught
exception (a malformed numeric field aborts the run). -/
def derive (row : List (String × J)) : Option Metric := do
  let (ncols, ell, ellp, rho, eta, theta) ← deriveParams row
  let (ok_lin, ok_eq4, ok_sum, ok_all) ← deriveVerdict row
  let (t_total, t_norm) ← deriveTimes row
  let (s_core, s_norm, s_total, s_wnorm, s_wtotal, s_bytes) ← deriveSizes row
  pure {
    Ncols := ncols, ell := ell, ellp := ellp, rho := rho, eta := eta,
    theta := theta,
    ok_lin := ok_lin, ok_eq4 := ok_eq4, ok_sum := ok_sum, ok_all := ok_all,
    t_total_ms := t_total, t_norm_ms := t_norm,
    size_fpar_core := s_core, size_fpar_norm := s_norm,
    size_fpar_total := s_total, size_witness_norm := s_wnorm,
    size_witness_total := s_wtotal, size_total_bytes := s_bytes }

/-- `derive` applied to an arbitrary raw record: on a non-dict the very first
`row.get` raises `AttributeError` (`none`). -/
def deriveJ : J → Option Metric
  | J.obj l => derive l
  | _ => none

/-- The sort key `(r["Ncols"], r["ell"], r["ellp"], r["rho"], r["eta"], r["theta"])`
used by both renderers, as a list for lexicographic comparison. -/
def sortKey (m : Metric) : List Int := [m.Ncols, m.ell, m.ellp, m.rho, m.eta, m.theta]

/-- Lexicographic non-strict comparison of integer lists, the order Python's
stable `sorted` produces on key tuples. -/
def lexLe : List Int → List Int → Bool
  | [], _ => true
  | _ :: _, [] => false
  | a :: as, b :: bs => if a < b then true else if b < a then false else lexLe as bs

/-- Row comparison by the canonical key. -/
def rowLe (a b : Metric) : Bool := lexLe (sortKey a) (sortKey b)

/-- The `rows_sorted = sorted(rows, key=...)` step of `write_markdown`
(line 95): Python's sort is a stable merge sort. -/
def write_markdown_sorted (rows : List Metric) : List Metric :=
  rows.mergeSort rowLe

/-- The `rows_sorted = sorted(rows, key=...)` step of `write_csv` (line 122). -/
def write_csv_sorted (rows : List Metric) : List Metric :=
  rows.mergeSort rowLe

/-- One input file for `load_rows`: its path and the outcome of `json.load`
(`parseError` covers unreadable or malformed files). -/
inductive FileData where
  | ok : J → FileData
  | parseError : FileData

/-- Path comparison used by `sorted(glob.glob(...))`. -/
def pathLe (a b : String × FileData) : Bool := decide (a.1 ≤ b.1)

/-- The sorted file enumeration `sorted(glob.glob(os.path.join(input_dir, "*.json")))`. -/
def sortFiles (files : List (String × FileData)) : List (String × FileData) :=
  files.mergeSort pathLe

/-- The body of the `load_rows` loop for one file: a dict is wrapped as a
one-element list, a list is extended as-is, and a parse failure or any other
top-level shape appends a warning naming the path and skips the file. -/
def processFile (acc : List J × List String) (f : String × FileData) :
    List J × List String :=
  match f.2 with
  | FileData.parseError => (acc.1, acc.2 ++ [f.1])
  | FileData.ok (J.obj l) => (acc.1 ++ [J.obj l], acc.2)
  | FileData.ok (J.arr xs) => (acc.1 ++ xs, acc.2)
  | FileData.ok _ => (acc.1, acc.2 ++ [f.1])

/-- `load_rows(input_dir)`: the accumulated rows together with the warning
messages (identified by the offending path) written to the error stream. -/
def load_rows (files : List (String × FileData)) : List J × List String :=
  (sortFiles files).foldl processFile ([], [])

/-- Records contributed by one file. -/
def fileRecords : String × FileData → List J
  | (_, FileData.ok (J.obj l)) => [J.obj l]
  | (_, FileData.ok (J.arr xs)) => xs
  | _ => []

/-- Warnings contributed by one file. -/
def fileWarns : String × FileData → List String
  | (_, FileData.ok (J.obj _)) => []
  | (_, FileData.ok (J.arr _)) => []
  | (p, _) => [p]

/-- Outcome of a run of `main()`:
`fatalEmpty` is the `[err] no JSON files found` message on the error stream
followed by `sys.exit(1)`, with neither output file written;
`crashed` is an uncaught exception from the `[derive(r) for r in rows_raw]`
list comprehension, which also happens before either output file is written;
`success md csv` means both output files were written, containing the sorted
metric rows of the Markdown and CSV renderers respectively. -/
inductive MainResult where
  | fatalEmpty : MainResult
  | crashed : MainResult
  | success : List Metric → List Metric → MainResult
  deriving DecidableEq

/-- `main()` after argument parsing, as a function of the input directory's
parsed files. -/
def main_run (files : List (String × FileData)) : MainResult :=
  let rows := (load_rows files).1
  if rows.isEmpty then MainResult.fatalEmpty
  else
    match mapOpt deriveJ rows with
    | none => MainResult.crashed
    | some derived =>
      MainResult.success (write_markdown_sorted derived) (write_csv_sorted derived)

/-- The example raw record of the spec's example scenario (C2). -/
def exampleRow : List (String × J) :=
  [("Opts", J.obj [("NCols", J.num 4), ("Ell", J.num 2), ("EllPrime", J.num 1),
                   ("Rho", J.num 3), ("Eta", J.num 1), ("Theta", J.num 1)]),
   ("Verdict", J.obj [("OkLin", J.bool true), ("OkEq4", J.bool true),
                      ("OkSum", J.bool true)]),
   ("TimingsUS", J.obj [("buildFparLinfChain", J.num 2000),
                        ("other", J.num 500)]),
   ("SizesB", J.obj [("piop/Fpar/core", J.num 100),
                     ("piop/Fpar/linf_chain", J.num 50),
                     ("piop/witness/linf_chain/M", J.num 10),
                     ("piop/witness/linf_chain/D", J.num 5)])]

/-- The six parameter names, in the order `derive` resolves them. -/
def sixKeys : List String := ["NCols", "Ell", "EllPrime", "Rho", "Eta", "Theta"]

/-- The metric-record field holding a given parameter name. -/
def paramField (m : Metric) : String → Int
  | "NCols" => m.Ncols
  | "Ell" => m.ell
  | "EllPrime" => m.ellp
  | "Rho" => m.rho
  | "Eta" => m.eta
  | "Theta" => m.theta
  | _ => 0

/-- Parameter resolution as the spec words it (claim C3): prefer the value
under `Opts[key]` if `Opts` is a mapping containing `key`; otherwise fall
back to a same-named top-level field on the record; otherwise default to
zero. -/
def resolveParamSpec (row : List (String × J)) (key : String) : J :=
  match lookupJ row "Opts" with
  | some (J.obj ol) =>
    match lookupJ ol key with
    | some v => v
    | none => getD row key (J.num 0)
  | _ => getD row key (J.num 0)

/-- The value survives Python `int(...)`. -/
def valIntable (v : J) : Bool := (pyToInt v).isSome

/-- The value survives participation in Python `sum(...)`: a number or a
boolean. -/
def valSummable (v : J) : Bool := (pySumVal v).isSome

/-- A group field is absent, a mapping whose values satisfy `ok`, or a falsy
non-mapping: the shape condition under which the corresponding part of
`derive` cannot raise, holding vacuously when the group is missing. -/
def groupValsOK (row : List (String × J)) (name : String) (ok : J → Bool) : Bool :=
  match orEmptyDict (getD row name (J.obj [])) with
  | some l => l.all (fun p => ok p.2)
  | none => false

/-- Well-typedness of the present fields of a raw record, requiring nothing
to be present: each resolved parameter coerces to an integer (the default
`0` always does), `Verdict` is a mapping or falsy, `TimingsUS` is a mapping
of summable values or falsy, and `SizesB` is a mapping of int-coercible
values or falsy. -/
def wellTyped (row : List (String × J)) : Bool :=
  sixKeys.all (fun k => valIntable (get_opt (getD row "Opts" (J.obj [])) row k)) &&
  groupValsOK row "Verdict" (fun _ => true) &&
  groupValsOK row "TimingsUS" valSummable &&
  groupValsOK row "SizesB" valIntable

/-- A directory with one well-formed JSON file whose record carries a
non-numeric byte count: `derive` raises on it (claim C7). -/
def crashFiles : List (String × FileData) :=
  [("a.json", FileData.ok (J.obj [("SizesB", J.obj [("k", J.str "x")])]))]

/-- A directory with one well-formed, minimal JSON file. -/
def okFiles : List (String × FileData) :=
  [("b.json", FileData.ok (J.obj []))]

/-- Witness record for C3: the parameter appears only as a top-level field. -/
def rowTopLevel : List (String × J) := [("NCols", J.num 7)]

/-- Witness record for C5: timings with an aggregate key. -/
def rowTimed : List (String × J) :=
  [("TimingsUS", J.obj [("__total__", J.num 3000), ("buildFparLinfChain", J.num 1000)])]

/-- Witness entries for C6: two sizes under the `piop/Fpar/` hierarchy. -/
def ssSized : List (String × J) :=
  [("piop/Fpar/core", J.num 3), ("piop/Fpar/extra", J.num 4)]

/-- Witness record for C6: two sizes under the `piop/Fpar/` hierarchy. -/
def rowSized : List (String × J) :=
  [("SizesB", J.obj ssSized)]

/-- Witness record for C9: only a falsy `Verdict`. -/
def rowSparse : List (String × J) := [("Verdict", J.bool false)]

/-- Witness record for C10: no `Verdict` key. -/
def rowNoVerdict : List (String × J) := [("Opts", J.obj [("NCols", J.num 1)])]

/-! ## Arithmetic helper lemmas -/

theorem ratFloor_eq_floor (q : ℚ) : ratFloor q = ⌊q⌋ := by
  have hdpos : (0 : ℤ) < (q.den : ℤ) := by exact_mod_cast q.pos
  have hdQ : (0 : ℚ) < (q.den : ℚ) := by exact_mod_cast q.pos
  have hdm : (q.den : ℤ) * (q.num.ediv (q.den : ℤ)) + q.num.emod (q.den : ℤ) = q.num :=
    Int.ediv_add_emod _ _
  have hm0 : 0 ≤ q.num.emod (q.den : ℤ) := Int.emod_nonneg _ (by omega)
  have hmlt : q.num.emod (q.den : ℤ) < (q.den : ℤ) := Int.emod_lt_of_pos _ hdpos
  have hnum : (q.num : ℚ) = q * (q.den : ℚ) :=
    (div_eq_iff (ne_of_gt hdQ)).mp (Rat.num_div_den q)
  have h1 : ((q.num.ediv (q.den : ℤ) : ℤ) : ℚ) ≤ q := by
    rw [← mul_le_mul_right hdQ, ← hnum]
    have h : q.num.ediv (q.den : ℤ) * (q.den : ℤ) ≤ q.num := by nlinarith
    exact_mod_cast h
  have h2 : q < (q.num.ediv (q.den : ℤ) : ℚ) + 1 := by
    rw [← mul_lt_mul_right hdQ, ← hnum]
    have h : q.num < (q.num.ediv (q.den : ℤ) + 1) * (q.den : ℤ) := by nlinarith
    exact_mod_cast h
  exact (Int.floor_eq_iff.mpr ⟨h1, h2⟩).symm

theorem ratFloor_eq (q : ℚ) (z : ℤ) (h1 : (z : ℚ) ≤ q) (h2 : q < z + 1) :
    ratFloor q = z := by
  rw [ratFloor_eq_floor]
  exact Int.floor_eq_iff.mpr ⟨h1, by linarith⟩

theorem rhe_eq_low (q : ℚ) (z : ℤ) (h1 : (z : ℚ) ≤ q) (h2 : q - z < 1/2) :
    rhe q = z := by
  have hf : ratFloor q = z := ratFloor_eq q z h1 (by linarith)
  simp only [rhe, hf]
  rw [if_pos h2]

theorem rhe_eq_high (q : ℚ) (z : ℤ) (h1 : (z : ℚ) ≤ q) (h2 : 1/2 < q - z)
    (h3 : q < z + 1) : rhe q = z + 1 := by
  have hf : ratFloor q = z := ratFloor_eq q z h1 h3
  simp only [rhe, hf]
  rw [if_neg (by linarith), if_pos h2]

/-! ## Properties of the lexicographic key comparison -/

theorem lexLe_refl : ∀ xs : List Int, lexLe xs xs = true
  | [] => rfl
  | a :: as => by simp [lexLe, lexLe_refl as]

theorem lexLe_total : ∀ xs ys : List Int, (lexLe xs ys || lexLe ys xs) = true
  | [], ys => by simp [lexLe]
  | x :: xs, [] => by simp [lexLe]
  | a :: as, b :: bs => by
    by_cases h1 : a < b
    · simp [lexLe, h1]
    · by_cases h2 : b < a
      · simp [lexLe, h1, h2]
      · simp [lexLe, h1, h2, lexLe_total as bs]

theorem lexLe_trans : ∀ xs ys zs : List Int,
    lexLe xs ys = true → lexLe ys zs = true → lexLe xs zs = true
  | [], _, _, _, _ => rfl
  | _ :: _, [], _, h, _ => by simp [lexLe] at h
  | _ :: _, _ :: _, [], _, h => by simp [lexLe] at h
  | a :: as, b :: bs, c :: cs, h1, h2 => by
    simp only [lexLe] at h1 h2 ⊢
    split at h1
    · rename_i hab
      split at h2
      · rename_i hbc
        simp [lt_trans hab hbc]
      · rename_i hbc
        split at h2
        · simp at h2
        · rename_i hcb
          have hbceq : b = c := le_antisymm (not_lt.mp hcb) (not_lt.mp hbc)
          subst hbceq
          simp [hab]
    · rename_i hab
      split at h1
      · simp at h1
      · rename_i hba
        have habeq : a = b := le_antisymm (not_lt.mp hba) (not_lt.mp hab)
        subst habeq
        split at h2
        · rename_i hac
          simp [hac]
        · rename_i hac
          split at h2
          · simp at h2
          · rename_i hca
            simp [hac, hca, lexLe_trans as bs cs h1 h2]

theorem rowLe_refl (a : Metric) : rowLe a a = true := lexLe_refl _

theorem rowLe_trans (a b c : Metric) :
    rowLe a b = true → rowLe b c = true → rowLe a c = true :=
  lexLe_trans _ _ _

theorem rowLe_total (a b : Metric) : (rowLe a b || rowLe b a) = true :=
  lexLe_total _ _

/-- Stability of the renderers' sort: records with any fixed key keep their
input order. -/
theorem mergeSort_rowLe_filter_key (rows : List Metric) (k : List Int) :
    (rows.mergeSort rowLe).filter (fun m => decide (sortKey m = k)) =
      rows.filter (fun m => decide (sortKey m = k)) := by
  set p : Metric → Bool := fun m => decide (sortKey m = k) with hp
  have hkey : ∀ a ∈ rows.filter p, sortKey a = k := by
    intro a ha
    have := List.of_mem_filter ha
    simpa [hp] using this
  have hpair : List.Pairwise (fun a b => rowLe a b = true) (rows.filter p) := by
    apply List.pairwise_of_forall_mem_list
    intro a ha b hb
    have h1 := hkey a ha
    have h2 := hkey b hb
    simp [rowLe, h1, h2, lexLe_refl]
  have hsub : List.Sublist (rows.filter p) (rows.mergeSort rowLe) :=
    List.sublist_mergeSort rowLe_trans rowLe_total hpair (List.filter_sublist rows)
  have hself : (rows.filter p).filter p = rows.filter p :=
    List.filter_eq_self.mpr fun a ha => List.of_mem_filter ha
  have hsub2 : List.Sublist (rows.filter p) ((rows.mergeSort rowLe).filter p) := by
    have h := List.Sublist.filter p hsub
    rwa [hself] at h
  have hlen : (rows.filter p).length = ((rows.mergeSort rowLe).filter p).length :=
    (((List.mergeSort_perm rows rowLe).filter p).length_eq).symm
  exact (hsub2.eq_of_length hlen).symm

/-- C4: for every sequence of metric records, the Markdown renderer and the
CSV renderer each emit their data rows in non-decreasing lexicographic order
of the 6-tuple `(Ncols, ell, ellp, rho, eta, theta)`; the sort is stable
(records with equal keys keep their input order, stated here as: for every
key value, filtering the output rows to that key yields exactly the input
rows with that key, in input order); and both renderers produce the same
row order on the same input. -/
theorem C4_renderers_sorted_stable_agree (rows : List Metric) :
    List.Pairwise (fun a b => rowLe a b = true) (write_markdown_sorted rows) ∧
    List.Pairwise (fun a b => rowLe a b = true) (write_csv_sorted rows) ∧
    (∀ k : List Int,
      (write_markdown_sorted rows).filter (fun m => decide (sortKey m = k)) =
        rows.filter (fun m => decide (sortKey m = k))) ∧
    (∀ k : List Int,
      (write_csv_sorted rows).filter (fun m => decide (sortKey m = k)) =
        rows.filter (fun m => decide (sortKey m = k))) ∧
    write_markdown_sorted rows = write_csv_sorted rows := by
  refine ⟨?_, ?_, ?_, ?_, rfl⟩ <;>
    first
      | exact List.sorted_mergeSort rowLe_trans rowLe_total rows
      | exact fun k => mergeSort_rowLe_filter_key rows k

/-- C1 concerns `fmt_bytes`. The spec's expected values for `0` and `1023`
hold, but the code divides by 1024 once in the loop and a second time in the
`return` expression, so `1024` renders as `"0.0 KiB"` (the spec expects
`"1.0 KiB"`) and `1048576` renders as `"0.0 MiB"` (the spec expects
`"1.0 MiB"`); a value `≥ 1024³` does select the `GiB` unit, but its mantissa
is likewise off by a factor of 1024. -/
theorem C1_fmt_bytes_eval :
    fmt_bytes 0 = "0 B" ∧
    fmt_bytes 1023 = "1023 B" ∧
    fmt_bytes 1024 = "0.0 KiB" ∧
    fmt_bytes 1048576 = "0.0 MiB" ∧
    fmt_bytes (1024 ^ 3) = "0.0 GiB" := by
  have h0 : rhe 0 = 0 := rhe_eq_low 0 0 (by norm_num) (by norm_num)
  have h1023 : rhe 1023 = 1023 := rhe_eq_low 1023 1023 (by norm_num) (by norm_num)
  have hsmall : rhe (5/512) = 0 := rhe_eq_low (5/512) 0 (by norm_num) (by norm_num)
  refine ⟨?_, ?_, ?_, ?_, ?_⟩
  · norm_num [fmt_bytes, fmtFixed0, h0]
    decide
  · norm_num [fmt_bytes, fmtFixed0, h1023]
    decide
  · norm_num [fmt_bytes, fmtFixed1, fmtFixed1Nonneg,
      show ((1024 : ℚ) / 1024 / 1024) * 10 = 5/512 by norm_num, hsmall]
    decide
  · norm_num [fmt_bytes, fmtFixed1, fmtFixed1Nonneg,
      show ((1048576 : ℚ) / 1024 / 1024 / 1024) * 10 = 5/512 by norm_num, hsmall]
    decide
  · norm_num [fmt_bytes, fmtFixed1, fmtFixed1Nonneg,
      show ((1024 : ℚ) ^ 3 / 1024 / 1024 / 1024 / 1024) * 10 = 5/512 by norm_num, hsmall]
    decide

/-- C2: on the spec's example record (no aggregate timing key), `derive`
returns a record with `t_total_ms = 2.5`, `t_norm_ms = 2.0`,
`size_fpar_total = 150`, `size_witness_total = 15`,
`size_total_bytes = 165`, and `ok_all = true`. -/
theorem C2_example_scenario :
    ∃ m : Metric, derive exampleRow = some m ∧
      m.t_total_ms = 2.5 ∧ m.t_norm_ms = 2.0 ∧
      m.size_fpar_total = 150 ∧ m.size_witness_total = 15 ∧
      m.size_total_bytes = 165 ∧ m.ok_all = true := by
  refine ⟨{ Ncols := 4, ell := 2, ellp := 1, rho := 3, eta := 1, theta := 1,
            ok_lin := true, ok_eq4 := true, ok_sum := true, ok_all := true,
            t_total_ms := 5/2, t_norm_ms := 2,
            size_fpar_core := 100, size_fpar_norm := 50, size_fpar_total := 150,
            size_witness_norm := 15, size_witness_total := 15,
            size_total_bytes := 165 }, ?_, by norm_num, by norm_num, rfl, rfl, rfl, rfl⟩
  simp +decide [derive, deriveParams, deriveVerdict, deriveTimes, deriveSizes,
    exampleRow, lookupJ, getD, get_opt, orEmptyDict, pyTruthy, isNull,
    pyToInt, pyFloat, pySumVal, sumPyInt, sumPyFloat, mapOpt, strStartsWith]
  norm_num

/-! ## Inversion of `derive` into its components -/

theorem derive_components {row : List (String × J)} {m : Metric}
    (h : derive row = some m) :
    deriveParams row = some (m.Ncols, m.ell, m.ellp, m.rho, m.eta, m.theta) ∧
    deriveVerdict row = some (m.ok_lin, m.ok_eq4, m.ok_sum, m.ok_all) ∧
    deriveTimes row = some (m.t_total_ms, m.t_norm_ms) ∧
    deriveSizes row = some (m.size_fpar_core, m.size_fpar_norm, m.size_fpar_total,
      m.size_witness_norm, m.size_witness_total, m.size_total_bytes) := by
  unfold derive at h
  rcases hp : deriveParams row with _ | ⟨n1, n2, n3, n4, n5, n6⟩ <;> rw [hp] at h
  · simp at h
  rcases hv : deriveVerdict row with _ | ⟨b1, b2, b3, b4⟩ <;> rw [hv] at h
  · simp at h
  rcases ht : deriveTimes row with _ | ⟨t1, t2⟩ <;> rw [ht] at h
  · simp at h
  rcases hs : deriveSizes row with _ | ⟨s1, s2, s3, s4, s5, s6⟩ <;> rw [hs] at h
  · simp at h
  simp only [Option.some_bind, Option.bind_eq_bind] at h
  cases h
  refine ⟨?_, ?_, ?_, ?_⟩ <;> simp [hp, hv, ht, hs]

theorem resolveParamSpec_eq_get_opt (row : List (String × J)) (key : String) :
    resolveParamSpec row key = get_opt (getD row "Opts" (J.obj [])) row key := by
  unfold resolveParamSpec get_opt getD
  cases hlo : lookupJ row "Opts" with
  | none => simp [lookupJ]
  | some v => cases v <;> simp

theorem deriveParams_fields {row : List (String × J)}
    {t : Int × Int × Int × Int × Int × Int} (h : deriveParams row = some t) :
    pyToInt (get_opt (getD row "Opts" (J.obj [])) row "NCols") = some t.1 ∧
    pyToInt (get_opt (getD row "Opts" (J.obj [])) row "Ell") = some t.2.1 ∧
    pyToInt (get_opt (getD row "Opts" (J.obj [])) row "EllPrime") = some t.2.2.1 ∧
    pyToInt (get_opt (getD row "Opts" (J.obj [])) row "Rho") = some t.2.2.2.1 ∧
    pyToInt (get_opt (getD row "Opts" (J.obj [])) row "Eta") = some t.2.2.2.2.1 ∧
    pyToInt (get_opt (getD row "Opts" (J.obj [])) row "Theta") = some t.2.2.2.2.2 := by
  unfold deriveParams at h
  simp only [Option.bind_eq_bind, Option.bind_eq_some, Option.some.injEq] at h
  obtain ⟨n1, h1, n2, h2, n3, h3, n4, h4, n5, h5, n6, h6, heq⟩ := h
  simp only [Option.pure_def, Option.some.injEq] at heq
  subst heq
  exact ⟨h1, h2, h3, h4, h5, h6⟩

/-- C3: for every raw record and each of the six parameters, the derived
integer value is the integer coercion of the spec-resolved raw value:
`Opts[<name>]` when `Opts` is a mapping containing the name, else the
same-named top-level field when present, else zero (`resolveParamSpec`).
In particular a record carrying a parameter only at top level derives the
same value as one carrying it inside `Opts`. -/
theorem C3_param_resolution (row : List (String × J)) (m : Metric) (key : String)
    (hk : key ∈ sixKeys) (hd : derive row = some m) :
    pyToInt (resolveParamSpec row key) = some (paramField m key) := by
  obtain ⟨hp, -, -, -⟩ := derive_components hd
  obtain ⟨h1, h2, h3, h4, h5, h6⟩ := deriveParams_fields hp
  rw [resolveParamSpec_eq_get_opt]
  simp only [sixKeys, List.mem_cons, List.mem_singleton, List.not_mem_nil, or_false] at hk
  rcases hk with rfl | rfl | rfl | rfl | rfl | rfl <;>
    simpa [paramField] using (by assumption :
      pyToInt (get_opt (getD row "Opts" (J.obj [])) row _) = some _)

/-- Witness for C3 at a record carrying `NCols` only as a top-level field. -/
theorem C3_witness :
    pyToInt (resolveParamSpec rowTopLevel "NCols") =
      some (paramField
        { Ncols := 7, ell := 0, ellp := 0, rho := 0, eta := 0,
          theta := 0, ok_lin := false, ok_eq4 := false, ok_sum := false,
          ok_all := false, t_total_ms := 0, t_norm_ms := 0, size_fpar_core := 0,
          size_fpar_norm := 0, size_fpar_total := 0, size_witness_norm := 0,
          size_witness_total := 0, size_total_bytes := 0 } "NCols") :=
  C3_param_resolution rowTopLevel _ "NCols" (by decide) (by
    simp +decide [derive, deriveParams, deriveVerdict, deriveTimes, deriveSizes,
      rowTopLevel, lookupJ, getD, get_opt, orEmptyDict, pyTruthy, isNull,
      pyToInt, pyFloat, pySumVal, sumPyInt, sumPyFloat, mapOpt, strStartsWith])

theorem mapOpt_pySumVal_num : ∀ qs : List ℚ, mapOpt pySumVal (qs.map J.num) = some qs
  | [] => rfl
  | q :: qs => by simp [mapOpt, pySumVal, mapOpt_pySumVal_num qs]

theorem pyToInt_zero : pyToInt (J.num 0) = some 0 := by
  simp [pyToInt]

theorem pyFloat_zero : pyFloat (J.num 0) = some 0 := rfl

/-- C5: for every raw record whose `TimingsUS` values are numeric,
`t_total_ms` is the value under the reserved aggregate key `__total__`
divided by 1000 when that key is present, and the sum of all values divided
by 1000 when it is absent; `t_norm_ms` is the `buildFparLinfChain` entry
divided by 1000, or `0` when that entry is absent (including when
`TimingsUS` itself is absent, in which case the entry list is empty). -/
theorem C5_timings (row : List (String × J)) (m : Metric)
    (ts : List (String × J)) (qs : List ℚ)
    (hd : derive row = some m)
    (hts : orEmptyDict (getD row "TimingsUS" (J.obj [])) = some ts)
    (hq : ts.map Prod.snd = qs.map J.num) :
    ((∀ q : ℚ, lookupJ ts "__total__" = some (J.num q) → m.t_total_ms = q / 1000) ∧
     (lookupJ ts "__total__" = none → m.t_total_ms = qs.sum / 1000)) ∧
    ((∀ q : ℚ, lookupJ ts "buildFparLinfChain" = some (J.num q) →
        m.t_norm_ms = q / 1000) ∧
     (lookupJ ts "buildFparLinfChain" = none → m.t_norm_ms = 0)) := by
  obtain ⟨-, -, ht, -⟩ := derive_components hd
  unfold deriveTimes at ht
  rw [hts] at ht
  simp only [Option.bind_eq_bind, Option.some_bind] at ht
  have hsum : sumPyFloat (ts.map Prod.snd) = some qs.sum := by
    rw [hq]
    simp [sumPyFloat, mapOpt_pySumVal_num, List.sum_eq_foldl]
  refine ⟨⟨?_, ?_⟩, ?_, ?_⟩
  · intro q hlk
    rw [hlk] at ht
    simp only [isNull, Bool.false_eq_true, if_false, pyFloat, Option.some_bind,
      Option.bind_eq_bind, Option.bind_eq_some, Option.pure_def, Option.some.injEq,
      Prod.mk.injEq] at ht
    obtain ⟨tn, h0, h1, h2⟩ := ht
    linarith [h1]
  · intro hlk
    rw [hlk, hsum] at ht
    simp only [Option.some_bind, Option.bind_eq_bind, Option.bind_eq_some,
      Option.pure_def, Option.some.injEq, Prod.mk.injEq] at ht
    obtain ⟨tn, h0, h1, h2⟩ := ht
    linarith [h1]
  · intro q hlk
    have hg : getD ts "buildFparLinfChain" (J.num 0) = J.num q := by
      unfold getD
      rw [hlk]
      rfl
    rcases hlk0 : lookupJ ts "__total__" with _ | v <;> rw [hlk0] at ht
    · rw [hsum] at ht
      simp only [hg, pyFloat, Option.some_bind, Option.pure_def, Option.some.injEq,
        Prod.mk.injEq] at ht
      linarith [ht.2]
    · rcases hv : isNull v <;> simp only [hv] at ht
      · simp only [Bool.false_eq_true, if_false, hg, pyFloat, Option.some_bind,
          Option.bind_eq_bind, Option.bind_eq_some, Option.pure_def, Option.some.injEq,
          Prod.mk.injEq] at ht
        obtain ⟨tot, h0, h1, h2⟩ := ht
        linarith [h2]
      · simp only [if_true, hsum, hg, pyFloat, Option.some_bind,
          Option.pure_def, Option.some.injEq, Prod.mk.injEq] at ht
        linarith [ht.2]
  · intro hlk
    have hg : getD ts "buildFparLinfChain" (J.num 0) = J.num 0 := by
      unfold getD
      rw [hlk]
      rfl
    have hz : m.t_norm_ms = 0 / 1000 → m.t_norm_ms = 0 := by
      intro h
      rw [h]
      norm_num
    rcases hlk0 : lookupJ ts "__total__" with _ | v <;> rw [hlk0] at ht
    · rw [hsum] at ht
      simp only [hg, pyFloat, Option.some_bind, Option.pure_def, Option.some.injEq,
        Prod.mk.injEq] at ht
      refine hz ?_
      linarith [ht.2]
    · rcases hv : isNull v <;> simp only [hv] at ht
      · simp only [Bool.false_eq_true, if_false, hg, pyFloat, Option.some_bind,
          Option.bind_eq_bind, Option.bind_eq_some, Option.pure_def, Option.some.injEq,
          Prod.mk.injEq] at ht
        obtain ⟨tot, h0, h1, h2⟩ := ht
        refine hz ?_
        linarith [h2]
      · simp only [if_true, hsum, hg, pyFloat, Option.some_bind,
          Option.pure_def, Option.some.injEq, Prod.mk.injEq] at ht
        refine hz ?_
        linarith [ht.2]

/-- Witness for C5 at a record with an aggregate timing key. -/
theorem C5_witness :
    ((∀ q : ℚ,
        lookupJ [("__total__", J.num 3000), ("buildFparLinfChain", J.num 1000)]
          "__total__" = some (J.num q) →
        (3 : ℚ) = q / 1000) ∧
     (lookupJ [("__total__", J.num 3000), ("buildFparLinfChain", J.num 1000)]
        "__total__" = none →
      (3 : ℚ) = ([3000, 1000] : List ℚ).sum / 1000)) ∧
    ((∀ q : ℚ,
        lookupJ [("__total__", J.num 3000), ("buildFparLinfChain", J.num 1000)]
          "buildFparLinfChain" = some (J.num q) →
        (1 : ℚ) = q / 1000) ∧
     (lookupJ [("__total__", J.num 3000), ("buildFparLinfChain", J.num 1000)]
        "buildFparLinfChain" = none →
      (1 : ℚ) = 0)) :=
  C5_timings rowTimed
    { Ncols := 0, ell := 0, ellp := 0, rho := 0, eta := 0, theta := 0,
      ok_lin := false, ok_eq4 := false, ok_sum := false, ok_all := false,
      t_total_ms := 3, t_norm_ms := 1, size_fpar_core := 0, size_fpar_norm := 0,
      size_fpar_total := 0, size_witness_norm := 0, size_witness_total := 0,
      size_total_bytes := 0 }
    [("__total__", J.num 3000), ("buildFparLinfChain", J.num 1000)]
    [3000, 1000]
    (by
      simp +decide [derive, deriveParams, deriveVerdict, deriveTimes, deriveSizes,
        rowTimed, lookupJ, getD, get_opt, orEmptyDict, pyTruthy, isNull,
        pyToInt, pyFloat, pySumVal, sumPyInt, sumPyFloat, mapOpt, strStartsWith]
      norm_num)
    (by simp [rowTimed, getD, lookupJ, orEmptyDict])
    rfl

/-- C6: for every raw record, the six size fields derive from `SizesB` as:
`size_fpar_core` and `size_fpar_norm` are the integer coercions of the exact
keys `piop/Fpar/core` and `piop/Fpar/linf_chain` (`0` when absent);
`size_fpar_total` and `size_witness_total` sum the coerced values of all
entries whose key starts with `piop/Fpar/` resp. `piop/witness/`;
`size_witness_norm` adds the coerced entries at the exact keys
`piop/witness/linf_chain/M` and `piop/witness/linf_chain/D` (`0` when
absent); `size_total_bytes` sums every coerced entry of `SizesB`. -/
theorem C6_size_aggregation (row : List (String × J)) (m : Metric)
    (ss : List (String × J))
    (hd : derive row = some m)
    (hss : orEmptyDict (getD row "SizesB" (J.obj [])) = some ss) :
    sumPyInt (ss.map Prod.snd) = some m.size_total_bytes ∧
    sumPyInt ((ss.filter (fun p => strStartsWith p.1 "piop/Fpar/")).map Prod.snd) =
      some m.size_fpar_total ∧
    sumPyInt ((ss.filter (fun p => strStartsWith p.1 "piop/witness/")).map Prod.snd) =
      some m.size_witness_total ∧
    ((lookupJ ss "piop/Fpar/core" = none → m.size_fpar_core = 0) ∧
     (∀ v, lookupJ ss "piop/Fpar/core" = some v →
        pyToInt v = some m.size_fpar_core)) ∧
    ((lookupJ ss "piop/Fpar/linf_chain" = none → m.size_fpar_norm = 0) ∧
     (∀ v, lookupJ ss "piop/Fpar/linf_chain" = some v →
        pyToInt v = some m.size_fpar_norm)) ∧
    (∀ a b : Int,
      pyToInt (getD ss "piop/witness/linf_chain/M" (J.num 0)) = some a →
      pyToInt (getD ss "piop/witness/linf_chain/D" (J.num 0)) = some b →
      m.size_witness_norm = a + b) := by
  obtain ⟨-, -, -, hs⟩ := derive_components hd
  unfold deriveSizes at hs
  rw [hss] at hs
  simp only [Option.some_bind, Option.bind_eq_bind, Option.bind_eq_some,
    Option.pure_def, Option.some.injEq] at hs
  obtain ⟨st, hst, sft, hsft, sfc, hsfc, sfn, hsfn, swt, hswt, a, ha, b, hb, heq⟩ := hs
  obtain ⟨e1, e2, e3, e4, e5, e6⟩ : m.size_fpar_core = sfc ∧ m.size_fpar_norm = sfn ∧
      m.size_fpar_total = sft ∧ m.size_witness_norm = a + b ∧
      m.size_witness_total = swt ∧ m.size_total_bytes = st := by
    have h1 := congrArg Prod.fst heq
    have h2 := congrArg (fun t => t.2.1) heq
    have h3 := congrArg (fun t => t.2.2.1) heq
    have h4 := congrArg (fun t => t.2.2.2.1) heq
    have h5 := congrArg (fun t => t.2.2.2.2.1) heq
    have h6 := congrArg (fun t => t.2.2.2.2.2) heq
    simp only at h1 h2 h3 h4 h5 h6
    exact ⟨h1.symm, h2.symm, h3.symm, h4.symm, h5.symm, h6.symm⟩
  refine ⟨?_, ?_, ?_, ⟨?_, ?_⟩, ⟨?_, ?_⟩, ?_⟩
  · rw [e6]; exact hst
  · rw [e3]; exact hsft
  · rw [e5]; exact hswt
  · intro hlk
    unfold getD at hsfc
    rw [hlk] at hsfc
    simp only [Option.getD_none, pyToInt_zero, Option.some.injEq] at hsfc
    omega
  · intro v hlk
    unfold getD at hsfc
    rw [hlk] at hsfc
    simpa [e1] using hsfc
  · intro hlk
    unfold getD at hsfn
    rw [hlk] at hsfn
    simp only [Option.getD_none, pyToInt_zero, Option.some.injEq] at hsfn
    omega
  · intro v hlk
    unfold getD at hsfn
    rw [hlk] at hsfn
    simpa [e2] using hsfn
  · intro a' b' ha' hb'
    rw [ha'] at ha
    rw [hb'] at hb
    cases ha
    cases hb
    exact e4

/-- Witness for C6 at a record with two `piop/Fpar/` entries. -/
theorem C6_witness :
    sumPyInt (ssSized.map Prod.snd) = some 7 ∧
    sumPyInt ((ssSized.filter (fun p => strStartsWith p.1 "piop/Fpar/")).map Prod.snd) =
      some 7 ∧
    sumPyInt ((ssSized.filter (fun p => strStartsWith p.1 "piop/witness/")).map Prod.snd) =
      some 0 ∧
    ((lookupJ ssSized "piop/Fpar/core" = none → (3 : Int) = 0) ∧
     (∀ v, lookupJ ssSized "piop/Fpar/core" = some v → pyToInt v = some 3)) ∧
    ((lookupJ ssSized "piop/Fpar/linf_chain" = none → (0 : Int) = 0) ∧
     (∀ v, lookupJ ssSized "piop/Fpar/linf_chain" = some v → pyToInt v = some 0)) ∧
    (∀ a b : Int,
      pyToInt (getD ssSized "piop/witness/linf_chain/M" (J.num 0)) = some a →
      pyToInt (getD ssSized "piop/witness/linf_chain/D" (J.num 0)) = some b →
      (0 : Int) = a + b) :=
  C6_size_aggregation rowSized
    { Ncols := 0, ell := 0, ellp := 0, rho := 0, eta := 0, theta := 0,
      ok_lin := false, ok_eq4 := false, ok_sum := false, ok_all := false,
      t_total_ms := 0, t_norm_ms := 0, size_fpar_core := 3, size_fpar_norm := 0,
      size_fpar_total := 7, size_witness_norm := 0, size_witness_total := 0,
      size_total_bytes := 7 }
    ssSized
    (by
      simp +decide [derive, deriveParams, deriveVerdict, deriveTimes, deriveSizes,
        rowSized, ssSized, lookupJ, getD, get_opt, orEmptyDict, pyTruthy, isNull,
        pyToInt, pyFloat, pySumVal, sumPyInt, sumPyFloat, mapOpt, strStartsWith])
    (by simp [rowSized, getD, lookupJ, orEmptyDict])

/-! ## Totality of `derive` on well-typed records (C9) -/

theorem lookupJ_mem : ∀ {l : List (String × J)} {k : String} {v : J},
    lookupJ l k = some v → (k, v) ∈ l := by
  intro l
  induction l with
  | nil => intro k v h; simp [lookupJ] at h
  | cons p rest ih =>
    intro k v h
    obtain ⟨k', v'⟩ := p
    simp only [lookupJ] at h
    by_cases hk : k = k'
    · rw [if_pos hk] at h
      cases h
      subst hk
      exact List.mem_cons_self _ _
    · rw [if_neg hk] at h
      exact List.mem_cons_of_mem _ (ih h)

theorem mapOpt_isSome {α β : Type} {f : α → Option β} :
    ∀ {l : List α}, (∀ a ∈ l, (f a).isSome) → (mapOpt f l).isSome := by
  intro l
  induction l with
  | nil => intro _; simp [mapOpt]
  | cons a as ih =>
    intro h
    have ha := h a (List.mem_cons_self a as)
    have has := ih fun x hx => h x (List.mem_cons_of_mem _ hx)
    rcases hfa : f a with _ | b
    · rw [hfa] at ha; simp at ha
    rcases hmo : mapOpt f as with _ | bs
    · rw [hmo] at has; simp at has
    simp [mapOpt, hfa, hmo]

theorem groupValsOK_elim {row : List (String × J)} {name : String} {ok : J → Bool}
    (h : groupValsOK row name ok = true) :
    ∃ l, orEmptyDict (getD row name (J.obj [])) = some l ∧ ∀ p ∈ l, ok p.2 := by
  unfold groupValsOK at h
  rcases hoe : orEmptyDict (getD row name (J.obj [])) with _ | l <;> rw [hoe] at h
  · simp at h
  · exact ⟨l, rfl, fun p hp => List.all_eq_true.mp h p hp⟩

theorem sumPyFloat_isSome {vs : List J} (h : ∀ v ∈ vs, (pySumVal v).isSome) :
    (sumPyFloat vs).isSome := by
  unfold sumPyFloat
  have hmo := mapOpt_isSome h
  rcases hm : mapOpt pySumVal vs with _ | qs
  · rw [hm] at hmo; simp at hmo
  · simp [hm]

theorem pyFloat_isSome_of_pySumVal {v : J} (h : (pySumVal v).isSome) :
    (pyFloat v).isSome := by
  cases v <;> simp [pySumVal, pyFloat] at h ⊢

theorem sumPyInt_isSome {vs : List J} (h : ∀ v ∈ vs, (pyToInt v).isSome) :
    (sumPyInt vs).isSome := by
  unfold sumPyInt
  have hmo := mapOpt_isSome h
  rcases hm : mapOpt pyToInt vs with _ | zs
  · rw [hm] at hmo; simp at hmo
  · simp [hm]

theorem deriveVerdict_isSome {row : List (String × J)}
    (h : groupValsOK row "Verdict" (fun _ => true) = true) :
    (deriveVerdict row).isSome := by
  obtain ⟨l, hl, -⟩ := groupValsOK_elim h
  unfold deriveVerdict
  simp [hl]

theorem deriveTimes_isSome {row : List (String × J)}
    (h : groupValsOK row "TimingsUS" valSummable = true) :
    (deriveTimes row).isSome := by
  obtain ⟨l, hl, hvals⟩ := groupValsOK_elim h
  have hvals' : ∀ v ∈ l.map Prod.snd, (pySumVal v).isSome := by
    intro v hv
    obtain ⟨p, hp, rfl⟩ := List.mem_map.mp hv
    simpa [valSummable] using hvals p hp
  have hnorm : (pyFloat (getD l "buildFparLinfChain" (J.num 0))).isSome := by
    rcases hlk : lookupJ l "buildFparLinfChain" with _ | w
    · simp [getD, hlk, pyFloat]
    · have hw := pyFloat_isSome_of_pySumVal
        (hvals' w (List.mem_map.mpr ⟨_, lookupJ_mem hlk, rfl⟩))
      simpa [getD, hlk] using hw
  obtain ⟨nq, hnq⟩ := Option.isSome_iff_exists.mp hnorm
  unfold deriveTimes
  rw [hl]
  simp only [Option.bind_eq_bind, Option.some_bind]
  rcases hlk : lookupJ l "__total__" with _ | v
  · obtain ⟨sq, hsq⟩ := Option.isSome_iff_exists.mp (sumPyFloat_isSome hvals')
    simp [hsq, hnq]
  · have hv := pyFloat_isSome_of_pySumVal
      (hvals' v (List.mem_map.mpr ⟨_, lookupJ_mem hlk, rfl⟩))
    rcases hnl : isNull v with _ | _
    · obtain ⟨fq, hfq⟩ := Option.isSome_iff_exists.mp hv
      simp [hnl, hfq, hnq]
    · obtain ⟨sq, hsq⟩ := Option.isSome_iff_exists.mp (sumPyFloat_isSome hvals')
      simp [hnl, hsq, hnq]

theorem deriveSizes_isSome {row : List (String × J)}
    (h : groupValsOK row "SizesB" valIntable = true) :
    (deriveSizes row).isSome := by
  obtain ⟨l, hl, hvals⟩ := groupValsOK_elim h
  have hvals' : ∀ v ∈ l.map Prod.snd, (pyToInt v).isSome := by
    intro v hv
    obtain ⟨p, hp, rfl⟩ := List.mem_map.mp hv
    simpa [valIntable] using hvals p hp
  have hexact : ∀ k : String, (pyToInt (getD l k (J.num 0))).isSome := by
    intro k
    rcases hlk : lookupJ l k with _ | w
    · simp [getD, hlk, pyToInt]
    · have hw := hvals' w (List.mem_map.mpr ⟨_, lookupJ_mem hlk, rfl⟩)
      simpa [getD, hlk] using hw
  have hfilter : ∀ p : String × J → Bool,
      (sumPyInt ((l.filter p).map Prod.snd)).isSome := by
    intro p
    apply sumPyInt_isSome
    intro v hv
    obtain ⟨q, hq, rfl⟩ := List.mem_map.mp hv
    exact hvals' q.2 (List.mem_map.mpr ⟨q, List.mem_of_mem_filter hq, rfl⟩)
  obtain ⟨st, hst⟩ := Option.isSome_iff_exists.mp (sumPyInt_isSome hvals')
  obtain ⟨sft, hsft⟩ := Option.isSome_iff_exists.mp
    (hfilter (fun p => strStartsWith p.1 "piop/Fpar/"))
  obtain ⟨swt, hswt⟩ := Option.isSome_iff_exists.mp
    (hfilter (fun p => strStartsWith p.1 "piop/witness/"))
  obtain ⟨c1, hc1⟩ := Option.isSome_iff_exists.mp (hexact "piop/Fpar/core")
  obtain ⟨c2, hc2⟩ := Option.isSome_iff_exists.mp (hexact "piop/Fpar/linf_chain")
  obtain ⟨c3, hc3⟩ := Option.isSome_iff_exists.mp (hexact "piop/witness/linf_chain/M")
  obtain ⟨c4, hc4⟩ := Option.isSome_iff_exists.mp (hexact "piop/witness/linf_chain/D")
  unfold deriveSizes
  rw [hl]
  simp [hst, hsft, hswt, hc1, hc2, hc3, hc4]

theorem deriveParams_isSome {row : List (String × J)}
    (h : sixKeys.all
      (fun k => valIntable (get_opt (getD row "Opts" (J.obj [])) row k)) = true) :
    (deriveParams row).isSome := by
  have hks : ∀ k ∈ sixKeys,
      (pyToInt (get_opt (getD row "Opts" (J.obj [])) row k)).isSome := by
    intro k hk
    simpa [valIntable] using List.all_eq_true.mp h k hk
  obtain ⟨n1, h1⟩ := Option.isSome_iff_exists.mp (hks "NCols" (by decide))
  obtain ⟨n2, h2⟩ := Option.isSome_iff_exists.mp (hks "Ell" (by decide))
  obtain ⟨n3, h3⟩ := Option.isSome_iff_exists.mp (hks "EllPrime" (by decide))
  obtain ⟨n4, h4⟩ := Option.isSome_iff_exists.mp (hks "Rho" (by decide))
  obtain ⟨n5, h5⟩ := Option.isSome_iff_exists.mp (hks "Eta" (by decide))
  obtain ⟨n6, h6⟩ := Option.isSome_iff_exists.mp (hks "Theta" (by decide))
  unfold deriveParams
  simp [h1, h2, h3, h4, h5, h6]

/-- C9: the metric deriver is total on records with absent fields: `derive`
succeeds on every record whose present fields are well typed — `wellTyped`
requires nothing to be present — and in particular the empty mapping derives
to a record with all six parameters `0`, all four verdict booleans `false`,
both durations `0`, and all six size fields `0`. -/
theorem C9_derive_totality :
    (∀ row : List (String × J), wellTyped row = true → (derive row).isSome) ∧
    derive [] = some
      { Ncols := 0, ell := 0, ellp := 0, rho := 0, eta := 0, theta := 0,
        ok_lin := false, ok_eq4 := false, ok_sum := false, ok_all := false,
        t_total_ms := 0, t_norm_ms := 0, size_fpar_core := 0, size_fpar_norm := 0,
        size_fpar_total := 0, size_witness_norm := 0, size_witness_total := 0,
        size_total_bytes := 0 } := by
  constructor
  · intro row hwt
    unfold wellTyped at hwt
    simp only [Bool.and_eq_true] at hwt
    obtain ⟨⟨⟨hp, hv⟩, ht⟩, hs⟩ := hwt
    obtain ⟨pv, hpv⟩ := Option.isSome_iff_exists.mp (deriveParams_isSome hp)
    obtain ⟨⟨n1, n2, n3, n4, n5, n6⟩, rfl⟩ :
        ∃ t : Int × Int × Int × Int × Int × Int, pv = t := ⟨pv, rfl⟩
    obtain ⟨vv, hvv⟩ := Option.isSome_iff_exists.mp (deriveVerdict_isSome hv)
    obtain ⟨⟨b1, b2, b3, b4⟩, rfl⟩ :
        ∃ t : Bool × Bool × Bool × Bool, vv = t := ⟨vv, rfl⟩
    obtain ⟨tv, htv⟩ := Option.isSome_iff_exists.mp (deriveTimes_isSome ht)
    obtain ⟨⟨t1, t2⟩, rfl⟩ : ∃ t : ℚ × ℚ, tv = t := ⟨tv, rfl⟩
    obtain ⟨sv, hsv⟩ := Option.isSome_iff_exists.mp (deriveSizes_isSome hs)
    obtain ⟨⟨s1, s2, s3, s4, s5, s6⟩, rfl⟩ :
        ∃ t : Int × Int × Int × Int × Int × Int, sv = t := ⟨sv, rfl⟩
    unfold derive
    simp [hpv, hvv, htv, hsv]
  · simp +decide [derive, deriveParams, deriveVerdict, deriveTimes, deriveSizes,
      lookupJ, getD, get_opt, orEmptyDict, pyTruthy, isNull,
      pyToInt, pyFloat, pySumVal, sumPyInt, sumPyFloat, mapOpt, strStartsWith]

/-- Witness for C9 at a record with only a falsy `Verdict` field. -/
theorem C9_witness :
    (derive rowSparse).isSome ∧
    derive [] = some
      { Ncols := 0, ell := 0, ellp := 0, rho := 0, eta := 0, theta := 0,
        ok_lin := false, ok_eq4 := false, ok_sum := false, ok_all := false,
        t_total_ms := 0, t_norm_ms := 0, size_fpar_core := 0, size_fpar_norm := 0,
        size_fpar_total := 0, size_witness_norm := 0, size_witness_total := 0,
        size_total_bytes := 0 } :=
  ⟨C9_derive_totality.1 rowSparse (by decide), C9_derive_totality.2⟩

/-! ## A `null` group behaves as an absent group (C10) -/

theorem lookupJ_cons_ne (k key : String) (v : J) (row : List (String × J))
    (h : key ≠ k) : lookupJ ((k, v) :: row) key = lookupJ row key := by
  simp [lookupJ, h]

theorem get_opt_congr {r1 r2 : List (String × J)} (opts : J) (key : String)
    (h : lookupJ r1 key = lookupJ r2 key) :
    get_opt opts r1 key = get_opt opts r2 key := by
  unfold get_opt getD
  cases opts <;> simp [h]

theorem deriveParams_congr {r1 r2 : List (String × J)}
    (hopts : getD r1 "Opts" (J.obj []) = getD r2 "Opts" (J.obj []))
    (hkeys : ∀ key ∈ sixKeys, lookupJ r1 key = lookupJ r2 key) :
    deriveParams r1 = deriveParams r2 := by
  have h1 := get_opt_congr (getD r2 "Opts" (J.obj [])) "NCols" (hkeys "NCols" (by decide))
  have h2 := get_opt_congr (getD r2 "Opts" (J.obj [])) "Ell" (hkeys "Ell" (by decide))
  have h3 := get_opt_congr (getD r2 "Opts" (J.obj [])) "EllPrime" (hkeys "EllPrime" (by decide))
  have h4 := get_opt_congr (getD r2 "Opts" (J.obj [])) "Rho" (hkeys "Rho" (by decide))
  have h5 := get_opt_congr (getD r2 "Opts" (J.obj [])) "Eta" (hkeys "Eta" (by decide))
  have h6 := get_opt_congr (getD r2 "Opts" (J.obj [])) "Theta" (hkeys "Theta" (by decide))
  simp only [deriveParams, hopts, h1, h2, h3, h4, h5, h6]

theorem deriveVerdict_congr {r1 r2 : List (String × J)}
    (h : orEmptyDict (getD r1 "Verdict" (J.obj [])) =
         orEmptyDict (getD r2 "Verdict" (J.obj []))) :
    deriveVerdict r1 = deriveVerdict r2 := by
  unfold deriveVerdict
  rw [h]

theorem deriveTimes_congr {r1 r2 : List (String × J)}
    (h : orEmptyDict (getD r1 "TimingsUS" (J.obj [])) =
         orEmptyDict (getD r2 "TimingsUS" (J.obj []))) :
    deriveTimes r1 = deriveTimes r2 := by
  unfold deriveTimes
  rw [h]

theorem deriveSizes_congr {r1 r2 : List (String × J)}
    (h : orEmptyDict (getD r1 "SizesB" (J.obj [])) =
         orEmptyDict (getD r2 "SizesB" (J.obj []))) :
    deriveSizes r1 = deriveSizes r2 := by
  unfold deriveSizes
  rw [h]

theorem derive_congr {r1 r2 : List (String × J)}
    (hp : deriveParams r1 = deriveParams r2)
    (hv : deriveVerdict r1 = deriveVerdict r2)
    (ht : deriveTimes r1 = deriveTimes r2)
    (hs : deriveSizes r1 = deriveSizes r2) : derive r1 = derive r2 := by
  unfold derive
  rw [hp, hv, ht, hs]

/-- C10: a `Verdict`, `TimingsUS` or `SizesB` field holding JSON `null` is
treated exactly as an absent field: `derive` on a record extended with a
`null` binding for such a group equals `derive` on the record without it
(the record is assumed not to bind the group elsewhere). -/
theorem C10_null_group_as_absent (row : List (String × J)) (k : String)
    (hk : k ∈ (["Verdict", "TimingsUS", "SizesB"] : List String))
    (habs : lookupJ row k = none) :
    derive ((k, J.null) :: row) = derive row := by
  have hself : ∀ name : String, name = k →
      orEmptyDict (getD ((k, J.null) :: row) name (J.obj [])) =
      orEmptyDict (getD row name (J.obj [])) := by
    intro name hname
    subst hname
    unfold getD
    rw [habs]
    simp [lookupJ, orEmptyDict, pyTruthy]
  have hother : ∀ name : String, name ≠ k →
      orEmptyDict (getD ((k, J.null) :: row) name (J.obj [])) =
      orEmptyDict (getD row name (J.obj [])) := by
    intro name hne
    unfold getD
    rw [lookupJ_cons_ne _ _ _ _ hne]
  simp only [List.mem_cons, List.not_mem_nil, or_false] at hk
  rcases hk with rfl | rfl | rfl
  · exact derive_congr
      (deriveParams_congr
        (by unfold getD; rw [lookupJ_cons_ne _ _ _ _ (by decide)])
        (by
          intro key hkey
          simp only [sixKeys, List.mem_cons, List.not_mem_nil, or_false] at hkey
          rcases hkey with rfl | rfl | rfl | rfl | rfl | rfl <;>
            exact lookupJ_cons_ne _ _ _ _ (by decide)))
      (deriveVerdict_congr (hself "Verdict" rfl))
      (deriveTimes_congr (hother "TimingsUS" (by decide)))
      (deriveSizes_congr (hother "SizesB" (by decide)))
  · exact derive_congr
      (deriveParams_congr
        (by unfold getD; rw [lookupJ_cons_ne _ _ _ _ (by decide)])
        (by
          intro key hkey
          simp only [sixKeys, List.mem_cons, List.not_mem_nil, or_false] at hkey
          rcases hkey with rfl | rfl | rfl | rfl | rfl | rfl <;>
            exact lookupJ_cons_ne _ _ _ _ (by decide)))
      (deriveVerdict_congr (hother "Verdict" (by decide)))
      (deriveTimes_congr (hself "TimingsUS" rfl))
      (deriveSizes_congr (hother "SizesB" (by decide)))
  · exact derive_congr
      (deriveParams_congr
        (by unfold getD; rw [lookupJ_cons_ne _ _ _ _ (by decide)])
        (by
          intro key hkey
          simp only [sixKeys, List.mem_cons, List.not_mem_nil, or_false] at hkey
          rcases hkey with rfl | rfl | rfl | rfl | rfl | rfl <;>
            exact lookupJ_cons_ne _ _ _ _ (by decide)))
      (deriveVerdict_congr (hother "Verdict" (by decide)))
      (deriveTimes_congr (hother "TimingsUS" (by decide)))
      (deriveSizes_congr (hself "SizesB" rfl))

/-- Witness for C10: adding `"Verdict": null` to a record without a
`Verdict` field leaves `derive` unchanged. -/
theorem C10_witness :
    derive (("Verdict", J.null) :: rowNoVerdict) = derive rowNoVerdict :=
  C10_null_group_as_absent rowNoVerdict "Verdict" (by decide)
    (by simp [rowNoVerdict, lookupJ])

/-! ## The loader and the top-level control flow (C7, C8) -/

theorem pathLe_trans (a b c : String × FileData) :
    pathLe a b = true → pathLe b c = true → pathLe a c = true := by
  simp only [pathLe, decide_eq_true_eq]
  exact le_trans

theorem pathLe_total (a b : String × FileData) :
    (pathLe a b || pathLe b a) = true := by
  simp only [pathLe, Bool.or_eq_true, decide_eq_true_eq]
  exact le_total a.1 b.1

theorem foldl_processFile :
    ∀ (fs : List (String × FileData)) (acc : List J × List String),
      fs.foldl processFile acc =
        (acc.1 ++ fs.flatMap fileRecords, acc.2 ++ fs.flatMap fileWarns)
  | [], acc => by simp
  | f :: fs, acc => by
    rw [List.foldl_cons, foldl_processFile fs]
    obtain ⟨p, fd⟩ := f
    cases fd with
    | parseError => simp [processFile, fileRecords, fileWarns]
    | ok v => cases v <;> simp [processFile, fileRecords, fileWarns]

/-- C8: the loader processes the files in lexicographically sorted path
order (the processed list is a path-sorted permutation of the directory's
files); per file, a top-level mapping is wrapped as a one-element sequence,
a top-level sequence is used as-is, and a parse failure or any other
top-level shape contributes no records and one warning naming the file; the
returned sequence is the concatenation of the accepted files' records in
file order then in-file order, and the warnings likewise follow file
order. -/
theorem C8_loader (files : List (String × FileData)) :
    List.Perm (sortFiles files) files ∧
    List.Pairwise (fun a b => pathLe a b = true) (sortFiles files) ∧
    (load_rows files).1 = (sortFiles files).flatMap fileRecords ∧
    (load_rows files).2 = (sortFiles files).flatMap fileWarns ∧
    (∀ p l, fileRecords (p, FileData.ok (J.obj l)) = [J.obj l] ∧
            fileWarns (p, FileData.ok (J.obj l)) = []) ∧
    (∀ p xs, fileRecords (p, FileData.ok (J.arr xs)) = xs ∧
             fileWarns (p, FileData.ok (J.arr xs)) = []) ∧
    (∀ p, fileRecords (p, FileData.parseError) = [] ∧
          fileWarns (p, FileData.parseError) = [p]) ∧
    (∀ p, fileRecords (p, FileData.ok J.null) = [] ∧
          fileWarns (p, FileData.ok J.null) = [p]) ∧
    (∀ p b, fileRecords (p, FileData.ok (J.bool b)) = [] ∧
            fileWarns (p, FileData.ok (J.bool b)) = [p]) ∧
    (∀ p q, fileRecords (p, FileData.ok (J.num q)) = [] ∧
            fileWarns (p, FileData.ok (J.num q)) = [p]) ∧
    (∀ p s, fileRecords (p, FileData.ok (J.str s)) = [] ∧
            fileWarns (p, FileData.ok (J.str s)) = [p]) := by
  refine ⟨List.mergeSort_perm files pathLe,
    List.sorted_mergeSort pathLe_trans pathLe_total files, ?_, ?_,
    fun p l => ⟨rfl, rfl⟩, fun p xs => ⟨rfl, rfl⟩, fun p => ⟨rfl, rfl⟩,
    fun p => ⟨rfl, rfl⟩, fun p b => ⟨rfl, rfl⟩, fun p q => ⟨rfl, rfl⟩,
    fun p s => ⟨rfl, rfl⟩⟩
  · unfold load_rows
    rw [foldl_processFile]
    simp
  · unfold load_rows
    rw [foldl_processFile]
    simp

/-- C7 as stated is violated by a record whose byte counts are not numeric:
one record is collected from `crashFiles`, yet `derive` raises on it and the
run aborts before either output file is written. -/
theorem C7_counterexample :
    (load_rows crashFiles).1 ≠ [] ∧ main_run crashFiles = MainResult.crashed := by
  have hx : pyToInt (J.str "x") = none := by decide
  have hrows : (load_rows crashFiles).1 =
      [J.obj [("SizesB", J.obj [("k", J.str "x")])]] := by
    unfold load_rows sortFiles crashFiles
    rw [List.mergeSort_singleton, foldl_processFile]
    simp [fileRecords]
  have hderive : derive [("SizesB", J.obj [("k", J.str "x")])] = none := by
    simp +decide [derive, deriveParams, deriveVerdict, deriveTimes, deriveSizes,
      lookupJ, getD, get_opt, orEmptyDict, pyTruthy, isNull,
      pyToInt, pyFloat, pySumVal, sumPyInt, sumPyFloat, mapOpt, strStartsWith,
      parseIntStr, trimChars, digitsVal]
  constructor
  · rw [hrows]
    simp
  · unfold main_run
    rw [hrows]
    simp [mapOpt, deriveJ, hderive]

/-- C7, amended: if the sequence of collected records is empty the program
writes a fatal diagnostic and exits with status 1 without writing either
output file; if at least one record is collected **and every collected
record derives without error**, both output files are written. -/
theorem C7_empty_fatal_nonempty_writes (files : List (String × FileData)) :
    ((load_rows files).1 = [] → main_run files = MainResult.fatalEmpty) ∧
    (∀ derived : List Metric, (load_rows files).1 ≠ [] →
      mapOpt deriveJ (load_rows files).1 = some derived →
      main_run files =
        MainResult.success (write_markdown_sorted derived)
          (write_csv_sorted derived)) := by
  constructor
  · intro h
    unfold main_run
    rw [h]
    rfl
  · intro derived hne hd
    have hie : (load_rows files).1.isEmpty = false := by
      rcases hl : (load_rows files).1 with _ | ⟨a, as⟩
      · exact absurd hl hne
      · simp
    simp only [main_run, hie, hd]
    rfl

/-- Witness for C7: the empty directory is fatal; a directory with one
minimal record writes both outputs. -/
theorem C7_witness :
    main_run [] = MainResult.fatalEmpty ∧
    main_run okFiles = MainResult.success
      (write_markdown_sorted
        [{ Ncols := 0, ell := 0, ellp := 0, rho := 0, eta := 0, theta := 0,
           ok_lin := false, ok_eq4 := false, ok_sum := false, ok_all := false,
           t_total_ms := 0, t_norm_ms := 0, size_fpar_core := 0,
           size_fpar_norm := 0, size_fpar_total := 0, size_witness_norm := 0,
           size_witness_total := 0, size_total_bytes := 0 }])
      (write_csv_sorted
        [{ Ncols := 0, ell := 0, ellp := 0, rho := 0, eta := 0, theta := 0,
           ok_lin := false, ok_eq4 := false, ok_sum := false, ok_all := false,
           t_total_ms := 0, t_norm_ms := 0, size_fpar_core := 0,
           size_fpar_norm := 0, size_fpar_total := 0, size_witness_norm := 0,
           size_witness_total := 0, size_total_bytes := 0 }]) :=
  ⟨(C7_empty_fatal_nonempty_writes []).1
      (by
        unfold load_rows sortFiles
        rw [List.mergeSort_nil]
        rfl),
   (C7_empty_fatal_nonempty_writes okFiles).2 _
      (by
        unfold load_rows sortFiles okFiles
        rw [List.mergeSort_singleton, foldl_processFile]
        simp [fileRecords])
      (by
        have hrows : (load_rows okFiles).1 = [J.obj []] := by
          unfold load_rows sortFiles okFiles
          rw [List.mergeSort_singleton, foldl_processFile]
          simp [fileRecords]
        rw [hrows]
        simp +decide [mapOpt, deriveJ, derive, deriveParams, deriveVerdict,
          deriveTimes, deriveSizes, lookupJ, getD, get_opt, orEmptyDict,
          pyTruthy, isNull, pyToInt, pyFloat, pySumVal, sumPyInt, sumPyFloat, strStartsWith])⟩

end StatCompiler
